import Mathlib

/-!
Shallow embedding of `scripts/count_documents.py`: a document/page census over
a client-folder hierarchy.  Pure functions below mirror the script's functions
(`count_pdf_pages`, `count_docx_pages`, `analyze_folder`, `save_csv_report`);
filesystem contents are modelled explicitly, and each per-file backend call is
modelled by its observable outcome (`Option Nat`: success with a value, or an
exception caught at the per-file boundary).
-/

/-- One regular file on disk.  `name` is the basename (used by the script's
extension dispatch `file.lower().endswith(...)`).  `pdfParse` is the outcome of
`PdfReader(file)` followed by `len(reader.pages)`: `some n` when parsing
succeeds with `n` pages, `none` when it raises.  `docxParse` is the outcome of
`Document(file)` followed by `sum(len(p.text) for p in doc.paragraphs)`:
`some total_chars` on success, `none` when it raises. -/
structure File where
  name : String
  pdfParse : Option Nat
  docxParse : Option Nat

/-- A directory-tree entry: a regular file, or a subdirectory with its name
and children. -/
inductive Entry where
  | file (f : File)
  | dir (name : String) (children : List Entry)

/-- The scan root as the script can observe it: `missing` (`root_path.exists()`
is false), `nonDir` (exists but is a regular file, so `root_path.iterdir()`
raises `NotADirectoryError`), or a directory with its immediate children. -/
inductive RootFS where
  | missing
  | nonDir
  | dir (children : List Entry)

/-- One entry of a `pdf_files` / `docx_files` list in the report:
`{"file": relative_path, "pages": pages}`. -/
structure FileRec where
  file : String
  pages : Nat
deriving DecidableEq, Repr

/-- The per-client stats dict built by `analyze_folder`. -/
structure ClientStats where
  pdf_files : List FileRec
  docx_files : List FileRec
  pdf_count : Nat
  docx_count : Nat
  pdf_pages : Nat
  docx_pages : Nat
  total_documents : Nat
  total_pages : Nat
deriving DecidableEq, Repr

/-- The `total_stats` dict of `analyze_folder` (the report's `summary`). -/
structure Summary where
  total_pdf_files : Nat
  total_docx_files : Nat
  total_pdf_pages : Nat
  total_docx_pages : Nat
  total_documents : Nat
  total_pages : Nat
deriving DecidableEq, Repr

/-- The value returned by `analyze_folder` (the wall-clock `analyzed_at`
timestamp is outside the model).  `clients` keeps the Python dict as an
association list in insertion order. -/
structure Report where
  clients : List (String × ClientStats)
  summary : Summary
  analyzed_path : String
deriving DecidableEq, Repr

/-- The exceptions that can escape `analyze_folder`: the explicit
`FileNotFoundError` raised when the root does not exist (the spec's
`RootNotFound`), and the `NotADirectoryError` raised by `root_path.iterdir()`
when the root exists but is not a directory. -/
inductive AnalyzeError where
  | rootNotFound
  | notADirectory
deriving DecidableEq, Repr

/-- Python's string comparison `<=` on character lists: lexicographic by code
point. -/
def charsLe : List Char → List Char → Bool
  | [], _ => true
  | _ :: _, [] => false
  | a :: as, b :: bs =>
      if a = b then charsLe as bs else decide (a < b)

/-- Python's string comparison `<=` (lexicographic by code point), which
drives `sorted` over client names. -/
def pyStrLe (a b : String) : Bool :=
  charsLe a.data b.data

/-- Python's `s.lower()` (ASCII case folding, which is all the extension
dispatch needs). -/
def pyLower (s : String) : String :=
  ⟨s.data.map Char.toLower⟩

/-- Python's `s.endswith(suffix)`. -/
def pyEndsWith (s suffix : String) : Bool :=
  suffix.data.isSuffixOf s.data

/-- `count_pdf_pages` with an explicit effect flag: the result pages together
with whether the backend was invoked (whether the `try` body ran).  The script
first short-circuits on the module-level `PDF_SUPPORT` boolean, then returns
`len(reader.pages)` on success and `0` when any exception is caught. -/
def count_pdf_pagesE (support : Bool) (f : File) : Nat × Bool :=
  if !support then (0, false)
  else
    match f.pdfParse with
    | some n => (n, true)
    | none => (0, true)

/-- `count_pdf_pages(file_path)`: the page count recorded for a `.pdf` file. -/
def count_pdf_pages (support : Bool) (f : File) : Nat :=
  (count_pdf_pagesE support f).1

/-- `count_docx_pages` with an explicit effect flag, mirroring the script: it
short-circuits on `DOCX_SUPPORT`, otherwise sums paragraph text lengths into
`total_chars` and returns
`max(1, total_chars // 3000) if total_chars > 0 else 1`, or `0` when the
backend raises. -/
def count_docx_pagesE (support : Bool) (f : File) : Nat × Bool :=
  if !support then (0, false)
  else
    match f.docxParse with
    | some total_chars =>
        (if total_chars > 0 then max 1 (total_chars / 3000) else 1, true)
    | none => (0, true)

/-- `count_docx_pages(file_path)`: the estimated page count for a `.docx`
file. -/
def count_docx_pages (support : Bool) (f : File) : Nat :=
  (count_docx_pagesE support f).1

/-- The files directly inside a directory, paired with their relative paths
(`pre` is the path prefix down from the client folder, `""` at the top). -/
def filesOf (pre : String) (es : List Entry) : List (String × File) :=
  es.filterMap (fun e =>
    match e with
    | Entry.file f => some (pre ++ f.name, f)
    | Entry.dir _ _ => none)

mutual
/-- The recursive part of `os.walk` for one entry: nothing for a file at this
level (files are collected by `filesOf` one level up), and for a subdirectory
its own files followed by its subtrees.  Path separator is written `/`. -/
def walkEntrySub (pre : String) : Entry → List (String × File)
  | Entry.file _ => []
  | Entry.dir n cs =>
      filesOf (pre ++ n ++ ("/")) cs ++ walkEntriesSub (pre ++ n ++ ("/")) cs

/-- The recursive part of `os.walk` over a sibling list, in `os.walk` top-down
order (each subdirectory's full subtree before later siblings). -/
def walkEntriesSub (pre : String) : List Entry → List (String × File)
  | [] => []
  | e :: rest => walkEntrySub pre e ++ walkEntriesSub pre rest
end

/-- All files in a client folder's subtree with their `relative_to` paths, in
`os.walk` top-down order. -/
def walkClient (es : List Entry) : List (String × File) :=
  filesOf ("") es ++ walkEntriesSub ("") es

/-- Empty per-client stats, as initialized at the top of the per-client loop. -/
def emptyClientStats : ClientStats :=
  { pdf_files := [], docx_files := [], pdf_count := 0, docx_count := 0,
    pdf_pages := 0, docx_pages := 0, total_documents := 0, total_pages := 0 }

/-- The body of the per-file loop of `analyze_folder`: dispatch on the
lower-cased basename; `.pdf` files go through `count_pdf_pages`, `.docx`
through `count_docx_pages`, legacy `.doc` files are recorded with `pages = 0`
(under `docx_files`, like `.docx`), anything else is ignored. -/
def processFile (pdfS docxS : Bool) (cs : ClientStats) (relPath : String) (f : File) : ClientStats :=
  let lname := pyLower f.name
  if pyEndsWith lname (".pdf") then
    let pages := count_pdf_pages pdfS f
    { cs with pdf_files := cs.pdf_files ++ [⟨relPath, pages⟩],
              pdf_count := cs.pdf_count + 1,
              pdf_pages := cs.pdf_pages + pages }
  else if pyEndsWith lname (".docx") || pyEndsWith lname (".doc") then
    let pages := if pyEndsWith lname (".docx") then count_docx_pages docxS f else 0
    { cs with docx_files := cs.docx_files ++ [⟨relPath, pages⟩],
              docx_count := cs.docx_count + 1,
              docx_pages := cs.docx_pages + pages }
  else cs

/-- The per-file loop of `analyze_folder` over a list of walked files. -/
def foldFiles (pdfS docxS : Bool) (cs : ClientStats) (files : List (String × File)) : ClientStats :=
  files.foldl (fun acc pf => processFile pdfS docxS acc pf.1 pf.2) cs

/-- The per-client stage of `analyze_folder`: fold the walked files through
`processFile`, then fill in the derived totals
(`total_documents = pdf_count + docx_count`,
`total_pages = pdf_pages + docx_pages`). -/
def analyzeClient (pdfS docxS : Bool) (es : List Entry) : ClientStats :=
  let cs := foldFiles pdfS docxS emptyClientStats (walkClient es)
  { cs with total_documents := cs.pdf_count + cs.docx_count,
            total_pages := cs.pdf_pages + cs.docx_pages }

/-- Python dict assignment `results[client_name] = client_stats` on a dict
kept as an association list: overwrite in place when the key exists, append
otherwise. -/
def dictInsert (k : String) (v : ClientStats) (d : List (String × ClientStats)) : List (String × ClientStats) :=
  if d.any (fun p => p.1 == k) then
    d.map (fun p => if p.1 == k then (k, v) else p)
  else d ++ [(k, v)]

/-- `total_stats` as initialized in `analyze_folder`. -/
def zeroSummary : Summary :=
  { total_pdf_files := 0, total_docx_files := 0, total_pdf_pages := 0,
    total_docx_pages := 0, total_documents := 0, total_pages := 0 }

/-- The "update global totals" block of the per-client loop. -/
def addSummary (t : Summary) (cs : ClientStats) : Summary :=
  { total_pdf_files := t.total_pdf_files + cs.pdf_count,
    total_docx_files := t.total_docx_files + cs.docx_count,
    total_pdf_pages := t.total_pdf_pages + cs.pdf_pages,
    total_docx_pages := t.total_docx_pages + cs.docx_pages,
    total_documents := t.total_documents + cs.total_documents,
    total_pages := t.total_pages + cs.total_pages }

/-- One iteration of the per-client loop: analyze the client, store its stats
in the results dict, and accumulate the global totals. -/
def analyzeStep (pdfS docxS : Bool) (acc : List (String × ClientStats) × Summary)
    (c : String × List Entry) : List (String × ClientStats) × Summary :=
  let cs := analyzeClient pdfS docxS c.2
  (dictInsert c.1 cs acc.1, addSummary acc.2 cs)

/-- `sorted(client_folders)`: client folders sorted by name (stable). -/
def sortClientFolders (l : List (String × List Entry)) : List (String × List Entry) :=
  List.insertionSort (fun a b => pyStrLe a.1 b.1 = true) l

/-- `[f for f in root_path.iterdir() if f.is_dir()]`: the immediate
subdirectories of the root, with their names. -/
def clientFoldersOf (es : List Entry) : List (String × List Entry) :=
  es.filterMap (fun e =>
    match e with
    | Entry.dir n cs => some (n, cs)
    | Entry.file _ => none)

/-- `analyze_folder(root_path)`.  A missing root raises `FileNotFoundError`
(the spec's `RootNotFound`); a root that exists but is not a directory makes
`root_path.iterdir()` raise `NotADirectoryError`; otherwise the immediate
subdirectories are the client folders, processed in sorted order, and a report
is always produced. -/
def analyze_folder (pdfS docxS : Bool) (root : RootFS) (path : String) : Except AnalyzeError Report :=
  match root with
  | RootFS.missing => Except.error AnalyzeError.rootNotFound
  | RootFS.nonDir => Except.error AnalyzeError.notADirectory
  | RootFS.dir es =>
      let final := (sortClientFolders (clientFoldersOf es)).foldl (analyzeStep pdfS docxS) ([], zeroSummary)
      Except.ok { clients := final.1, summary := final.2, analyzed_path := path }

/-- The CSV header line written by `save_csv_report`. -/
def csvHeaderLine : String :=
  ("Client Folder,PDF Count,DOCX Count,Total Documents,PDF Pages,DOCX Pages (est),Total Pages")

/-- `safe_name`: the client name, wrapped in double quotes when it contains a
comma. -/
def safeCsvName (name : String) : String :=
  if name.data.contains ',' then ("\"") ++ name ++ ("\"") else name

/-- The per-client data row of the CSV report (one `f.write` in the script,
without the trailing newline). -/
def clientCsvRow (name : String) (s : ClientStats) : String :=
  safeCsvName name ++ (",") ++ Nat.repr s.pdf_count ++ (",") ++ Nat.repr s.docx_count
    ++ (",") ++ Nat.repr s.total_documents ++ (",") ++ Nat.repr s.pdf_pages
    ++ (",") ++ Nat.repr s.docx_pages ++ (",") ++ Nat.repr s.total_pages

/-- The trailing `TOTAL` row of the CSV report. -/
def totalCsvRow (t : Summary) : String :=
  ("TOTAL,") ++ Nat.repr t.total_pdf_files ++ (",") ++ Nat.repr t.total_docx_files
    ++ (",") ++ Nat.repr t.total_documents ++ (",") ++ Nat.repr t.total_pdf_pages
    ++ (",") ++ Nat.repr t.total_docx_pages ++ (",") ++ Nat.repr t.total_pages

/-- `sorted(results["clients"].items())`: client entries sorted by name. -/
def sortClientStats (l : List (String × ClientStats)) : List (String × ClientStats) :=
  List.insertionSort (fun a b => pyStrLe a.1 b.1 = true) l

/-- `save_csv_report`: the lines of the CSV file, in order. -/
def save_csv_report (r : Report) : List String :=
  csvHeaderLine :: ((sortClientStats r.clients).map (fun p => clientCsvRow p.1 p.2) ++ [totalCsvRow r.summary])

/-- How a CSV reader splits one line into fields: a double quote toggles
quoted mode (and is not part of the field text), a comma outside quotes ends
the current field, every other character belongs to the current field. -/
def csvSplitCore : List Char → Bool → List Char → List (List Char)
  | [], _, cur => [cur.reverse]
  | c :: cs, inQ, cur =>
    if c = '"' then csvSplitCore cs (!inQ) cur
    else if c = ',' ∧ inQ = false then cur.reverse :: csvSplitCore cs inQ []
    else csvSplitCore cs inQ (c :: cur)

/-- The fields a CSV reader recovers from one line. -/
def csvSplit (s : String) : List String :=
  (csvSplitCore s.data false []).map (fun l => ⟨l⟩)

/-- A walked file whose lower-cased basename ends in `.pdf` (the first branch
of the dispatch). -/
def isPdfFile (pf : String × File) : Bool :=
  pyEndsWith (pyLower pf.2.name) (".pdf")

/-- A walked file taken by the Word branch of the dispatch: not a `.pdf`, and
its lower-cased basename ends in `.docx` or `.doc`. -/
def isWordFile (pf : String × File) : Bool :=
  !isPdfFile pf && (pyEndsWith (pyLower pf.2.name) (".docx") || pyEndsWith (pyLower pf.2.name) (".doc"))

/-- The page count the Word branch records: `count_docx_pages` for `.docx`,
`0` for legacy `.doc`. -/
def wordPages (docxS : Bool) (f : File) : Nat :=
  if pyEndsWith (pyLower f.name) (".docx") then count_docx_pages docxS f else 0

/-- The names of the immediate subdirectories in an entry list. -/
def dirNames (es : List Entry) : List String :=
  es.filterMap (fun e =>
    match e with
    | Entry.dir n _ => some n
    | Entry.file _ => none)

/-- The names of the scan root's immediate subdirectories. -/
def rootDirNames (root : RootFS) : List String :=
  match root with
  | RootFS.dir es => dirNames es
  | _ => []

/-- Sample tree from the spec's scenario: `Acme` holds one 3-page PDF and one
zero-character DOCX, `Beta` holds one unreadable PDF. -/
def acmeEntries : List Entry :=
  [Entry.file ⟨("a.pdf"), some 3, none⟩, Entry.file ⟨("b.docx"), none, some 0⟩]

/-- See `acmeEntries`. -/
def betaEntries : List Entry :=
  [Entry.file ⟨("c.pdf"), none, none⟩]

/-- The scan root of the sample scenario. -/
def sampleRoot : RootFS :=
  RootFS.dir [Entry.dir ("Beta") betaEntries, Entry.dir ("Acme") acmeEntries]

/-- The report the scan produces on `sampleRoot` with both backends
available. -/
def sampleReport : Report :=
  { clients :=
      [(("Acme"),
        { pdf_files := [⟨("a.pdf"), 3⟩], docx_files := [⟨("b.docx"), 1⟩],
          pdf_count := 1, docx_count := 1, pdf_pages := 3, docx_pages := 1,
          total_documents := 2, total_pages := 4 }),
       (("Beta"),
        { pdf_files := [⟨("c.pdf"), 0⟩], docx_files := [],
          pdf_count := 1, docx_count := 0, pdf_pages := 0, docx_pages := 0,
          total_documents := 1, total_pages := 0 })],
    summary :=
      { total_pdf_files := 2, total_docx_files := 1, total_pdf_pages := 3,
        total_docx_pages := 1, total_documents := 3, total_pages := 4 },
    analyzed_path := ("clients") }

/-- A list of CSV fields joined by commas (the shape of one serialized row). -/
def joinComma : List (List Char) → List Char
  | [] => []
  | [f] => f
  | f :: fs => f ++ ',' :: joinComma fs

/-- A lower-cased name ending in `.doc` cannot end in `.pdf`. -/
theorem not_pdf_of_doc (s : String) (h : pyEndsWith s (".doc") = true) :
    pyEndsWith s (".pdf") = false := by
  by_contra hc
  rw [Bool.not_eq_false] at hc
  unfold pyEndsWith at h hc
  rw [List.isSuffixOf_iff_suffix] at h hc
  rcases List.suffix_or_suffix_of_suffix h hc with h' | h' <;> revert h' <;> decide

/-- A lower-cased name ending in `.docx` cannot end in `.pdf`. -/
theorem not_pdf_of_docx (s : String) (h : pyEndsWith s (".docx") = true) :
    pyEndsWith s (".pdf") = false := by
  by_contra hc
  rw [Bool.not_eq_false] at hc
  unfold pyEndsWith at h hc
  rw [List.isSuffixOf_iff_suffix] at h hc
  rcases List.suffix_or_suffix_of_suffix h hc with h' | h' <;> revert h' <;> decide

/-- Unfolding of the `.pdf` branch of `processFile`. -/
theorem processFile_pdf (pdfS docxS : Bool) (cs : ClientStats) (rp : String) (f : File)
    (h : pyEndsWith (pyLower f.name) (".pdf") = true) :
    processFile pdfS docxS cs rp f =
      { cs with pdf_files := cs.pdf_files ++ [⟨rp, count_pdf_pages pdfS f⟩],
                pdf_count := cs.pdf_count + 1,
                pdf_pages := cs.pdf_pages + count_pdf_pages pdfS f } := by
  simp [processFile, h]

/-- Unfolding of the Word branch of `processFile`. -/
theorem processFile_word (pdfS docxS : Bool) (cs : ClientStats) (rp : String) (f : File)
    (h1 : pyEndsWith (pyLower f.name) (".pdf") = false)
    (h2 : (pyEndsWith (pyLower f.name) (".docx") || pyEndsWith (pyLower f.name) (".doc")) = true) :
    processFile pdfS docxS cs rp f =
      { cs with docx_files := cs.docx_files ++ [⟨rp, wordPages docxS f⟩],
                docx_count := cs.docx_count + 1,
                docx_pages := cs.docx_pages + wordPages docxS f } := by
  simp [processFile, h1, h2, wordPages]

/-- Unfolding of the ignore branch of `processFile`. -/
theorem processFile_other (pdfS docxS : Bool) (cs : ClientStats) (rp : String) (f : File)
    (h1 : pyEndsWith (pyLower f.name) (".pdf") = false)
    (h2 : (pyEndsWith (pyLower f.name) (".docx") || pyEndsWith (pyLower f.name) (".doc")) = false) :
    processFile pdfS docxS cs rp f = cs := by
  simp [processFile, h1, h2]

/-- Characterization of the per-file loop: starting from `cs`, folding a list
of walked files adds, per format, the matching files' records, counts and page
sums, and leaves the totals fields untouched. -/
theorem foldFiles_spec (pdfS docxS : Bool) (files : List (String × File)) (cs : ClientStats) :
    (foldFiles pdfS docxS cs files).pdf_count = cs.pdf_count + files.countP isPdfFile ∧
    (foldFiles pdfS docxS cs files).docx_count = cs.docx_count + files.countP isWordFile ∧
    (foldFiles pdfS docxS cs files).pdf_pages =
      cs.pdf_pages + ((files.filter isPdfFile).map (fun pf => count_pdf_pages pdfS pf.2)).sum ∧
    (foldFiles pdfS docxS cs files).docx_pages =
      cs.docx_pages + ((files.filter isWordFile).map (fun pf => wordPages docxS pf.2)).sum ∧
    (foldFiles pdfS docxS cs files).pdf_files =
      cs.pdf_files ++ (files.filter isPdfFile).map (fun pf => (⟨pf.1, count_pdf_pages pdfS pf.2⟩ : FileRec)) ∧
    (foldFiles pdfS docxS cs files).docx_files =
      cs.docx_files ++ (files.filter isWordFile).map (fun pf => (⟨pf.1, wordPages docxS pf.2⟩ : FileRec)) ∧
    (foldFiles pdfS docxS cs files).total_documents = cs.total_documents ∧
    (foldFiles pdfS docxS cs files).total_pages = cs.total_pages := by
  induction files generalizing cs with
  | nil => simp [foldFiles]
  | cons pf fs ih =>
    have hstep : foldFiles pdfS docxS cs (pf :: fs) =
        foldFiles pdfS docxS (processFile pdfS docxS cs pf.1 pf.2) fs := rfl
    obtain ⟨c1, c2, c3, c4, c5, c6, c7, c8⟩ := ih (processFile pdfS docxS cs pf.1 pf.2)
    rw [hstep]
    cases hp : pyEndsWith (pyLower pf.2.name) (".pdf") with
    | true =>
      have hpI : isPdfFile pf = true := by simp [isPdfFile, hp]
      have hwI : isWordFile pf = false := by simp [isWordFile, hpI]
      refine ⟨c1.trans ?_, c2.trans ?_, c3.trans ?_, c4.trans ?_, c5.trans ?_,
        c6.trans ?_, c7.trans ?_, c8.trans ?_⟩ <;>
        simp [processFile_pdf pdfS docxS cs pf.1 pf.2 hp,
          List.countP_cons, List.filter_cons, hpI, hwI, List.append_assoc] <;> try omega
    | false =>
      cases hw : (pyEndsWith (pyLower pf.2.name) (".docx")
          || pyEndsWith (pyLower pf.2.name) (".doc")) with
      | true =>
        have hpI : isPdfFile pf = false := by simp [isPdfFile, hp]
        have hwI : isWordFile pf = true := by simp [isWordFile, isPdfFile, hp, hw]
        refine ⟨c1.trans ?_, c2.trans ?_, c3.trans ?_, c4.trans ?_, c5.trans ?_,
          c6.trans ?_, c7.trans ?_, c8.trans ?_⟩ <;>
          simp [processFile_word pdfS docxS cs pf.1 pf.2 hp hw,
            List.countP_cons, List.filter_cons, hpI, hwI, List.append_assoc] <;> try omega
      | false =>
        have hpI : isPdfFile pf = false := by simp [isPdfFile, hp]
        have hwI : isWordFile pf = false := by simp [isWordFile, isPdfFile, hp, hw]
        refine ⟨c1.trans ?_, c2.trans ?_, c3.trans ?_, c4.trans ?_, c5.trans ?_,
          c6.trans ?_, c7.trans ?_, c8.trans ?_⟩ <;>
          simp [processFile_other pdfS docxS cs pf.1 pf.2 hp hw,
            List.countP_cons, List.filter_cons, hpI, hwI]

/-- Characterization of one analyzed client: each field of the resulting
`ClientStats` as a function of the walked file list. -/
theorem analyzeClient_spec (pdfS docxS : Bool) (es : List Entry) :
    (analyzeClient pdfS docxS es).pdf_count = (walkClient es).countP isPdfFile ∧
    (analyzeClient pdfS docxS es).docx_count = (walkClient es).countP isWordFile ∧
    (analyzeClient pdfS docxS es).pdf_pages =
      (((walkClient es).filter isPdfFile).map (fun pf => count_pdf_pages pdfS pf.2)).sum ∧
    (analyzeClient pdfS docxS es).docx_pages =
      (((walkClient es).filter isWordFile).map (fun pf => wordPages docxS pf.2)).sum ∧
    (analyzeClient pdfS docxS es).pdf_files =
      ((walkClient es).filter isPdfFile).map (fun pf => (⟨pf.1, count_pdf_pages pdfS pf.2⟩ : FileRec)) ∧
    (analyzeClient pdfS docxS es).docx_files =
      ((walkClient es).filter isWordFile).map (fun pf => (⟨pf.1, wordPages docxS pf.2⟩ : FileRec)) := by
  obtain ⟨c1, c2, c3, c4, c5, c6, _, _⟩ := foldFiles_spec pdfS docxS (walkClient es) emptyClientStats
  simp only [emptyClientStats] at c1 c2 c3 c4 c5 c6
  exact ⟨by simpa [analyzeClient] using c1, by simpa [analyzeClient] using c2,
    by simpa [analyzeClient] using c3, by simpa [analyzeClient] using c4,
    by simpa [analyzeClient] using c5, by simpa [analyzeClient] using c6⟩

/-- The derived totals of an analyzed client are the sums of its parts. -/
theorem analyzeClient_totals (pdfS docxS : Bool) (es : List Entry) :
    (analyzeClient pdfS docxS es).total_documents =
      (analyzeClient pdfS docxS es).pdf_count + (analyzeClient pdfS docxS es).docx_count ∧
    (analyzeClient pdfS docxS es).total_pages =
      (analyzeClient pdfS docxS es).pdf_pages + (analyzeClient pdfS docxS es).docx_pages := by
  constructor <;> rfl

/-- Any entry of a dict after an insertion was already present or is the
inserted pair. -/
theorem dictInsert_mem (k : String) (v : ClientStats) (d : List (String × ClientStats))
    (p : String × ClientStats) (hm : p ∈ dictInsert k v d) : p ∈ d ∨ p = (k, v) := by
  unfold dictInsert at hm
  split at hm
  · obtain ⟨q, hq, he⟩ := List.mem_map.1 hm
    by_cases hqk : q.1 == k
    · rw [if_pos hqk] at he
      exact Or.inr he.symm
    · rw [if_neg hqk] at he
      exact Or.inl (he ▸ hq)
  · rcases List.mem_append.1 hm with h | h
    · exact Or.inl h
    · exact Or.inr (List.mem_singleton.1 h)

/-- Inserting a fresh key appends the pair at the end. -/
theorem dictInsert_of_fresh (k : String) (v : ClientStats) (d : List (String × ClientStats))
    (h : ∀ q ∈ d, q.1 ≠ k) : dictInsert k v d = d ++ [(k, v)] := by
  have hcond : d.any (fun p => p.1 == k) = false := by
    rw [List.any_eq_false]
    intro q hq
    simp only [beq_iff_eq]
    exact h q hq
  simp [dictInsert, hcond]

/-- The summary accumulated by the per-client loop: each component is its
starting value plus the sum of the matching component over the processed
clients. -/
theorem foldClients_summary (pdfS docxS : Bool) (cl : List (String × List Entry))
    (acc : List (String × ClientStats) × Summary) :
    (cl.foldl (analyzeStep pdfS docxS) acc).2.total_pdf_files
      = acc.2.total_pdf_files + (cl.map (fun c => (analyzeClient pdfS docxS c.2).pdf_count)).sum ∧
    (cl.foldl (analyzeStep pdfS docxS) acc).2.total_docx_files
      = acc.2.total_docx_files + (cl.map (fun c => (analyzeClient pdfS docxS c.2).docx_count)).sum ∧
    (cl.foldl (analyzeStep pdfS docxS) acc).2.total_pdf_pages
      = acc.2.total_pdf_pages + (cl.map (fun c => (analyzeClient pdfS docxS c.2).pdf_pages)).sum ∧
    (cl.foldl (analyzeStep pdfS docxS) acc).2.total_docx_pages
      = acc.2.total_docx_pages + (cl.map (fun c => (analyzeClient pdfS docxS c.2).docx_pages)).sum ∧
    (cl.foldl (analyzeStep pdfS docxS) acc).2.total_documents
      = acc.2.total_documents + (cl.map (fun c => (analyzeClient pdfS docxS c.2).total_documents)).sum ∧
    (cl.foldl (analyzeStep pdfS docxS) acc).2.total_pages
      = acc.2.total_pages + (cl.map (fun c => (analyzeClient pdfS docxS c.2).total_pages)).sum := by
  induction cl generalizing acc with
  | nil => simp
  | cons c cl ih =>
    obtain ⟨i1, i2, i3, i4, i5, i6⟩ := ih (analyzeStep pdfS docxS acc c)
    have hfold : (c :: cl).foldl (analyzeStep pdfS docxS) acc
        = cl.foldl (analyzeStep pdfS docxS) (analyzeStep pdfS docxS acc c) := rfl
    rw [hfold]
    refine ⟨i1.trans ?_, i2.trans ?_, i3.trans ?_, i4.trans ?_, i5.trans ?_, i6.trans ?_⟩ <;>
      simp [analyzeStep, addSummary] <;> omega

/-- Every stats value stored by the per-client loop is the analysis of one of
the processed client folders (or was already in the accumulator). -/
theorem foldClients_mem (pdfS docxS : Bool) (cl : List (String × List Entry))
    (acc : List (String × ClientStats) × Summary) (p : String × ClientStats)
    (hp : p ∈ (cl.foldl (analyzeStep pdfS docxS) acc).1) :
    p ∈ acc.1 ∨ ∃ c ∈ cl, p.2 = analyzeClient pdfS docxS c.2 := by
  induction cl generalizing acc with
  | nil => exact Or.inl hp
  | cons c cl ih =>
    have hfold : (c :: cl).foldl (analyzeStep pdfS docxS) acc
        = cl.foldl (analyzeStep pdfS docxS) (analyzeStep pdfS docxS acc c) := rfl
    rw [hfold] at hp
    rcases ih (analyzeStep pdfS docxS acc c) hp with h | ⟨c', hc', he⟩
    · rcases dictInsert_mem c.1 (analyzeClient pdfS docxS c.2) acc.1 p h with h' | h'
      · exact Or.inl h'
      · exact Or.inr ⟨c, List.mem_cons_self c cl, by rw [h']⟩
    · exact Or.inr ⟨c', List.mem_cons_of_mem c hc', he⟩

/-- With pairwise-distinct client names (as on a real filesystem), the
per-client loop appends one entry per client, in processing order. -/
theorem foldClients_clients (pdfS docxS : Bool) (cl : List (String × List Entry))
    (acc : List (String × ClientStats) × Summary)
    (hd : (cl.map Prod.fst).Nodup)
    (hdisj : ∀ q ∈ acc.1, ∀ c ∈ cl, q.1 ≠ c.1) :
    (cl.foldl (analyzeStep pdfS docxS) acc).1
      = acc.1 ++ cl.map (fun c => (c.1, analyzeClient pdfS docxS c.2)) := by
  induction cl generalizing acc with
  | nil => simp
  | cons c cl ih =>
    have hfold : (c :: cl).foldl (analyzeStep pdfS docxS) acc
        = cl.foldl (analyzeStep pdfS docxS) (analyzeStep pdfS docxS acc c) := rfl
    rw [hfold]
    have hins : (analyzeStep pdfS docxS acc c).1 = acc.1 ++ [(c.1, analyzeClient pdfS docxS c.2)] :=
      dictInsert_of_fresh c.1 (analyzeClient pdfS docxS c.2) acc.1
        (fun q hq => hdisj q hq c (List.mem_cons_self c cl))
    have hd' : (cl.map Prod.fst).Nodup := (List.nodup_cons.1 (by simpa using hd)).2
    have hhead : c.1 ∉ cl.map Prod.fst := (List.nodup_cons.1 (by simpa using hd)).1
    have hdisj' : ∀ q ∈ (analyzeStep pdfS docxS acc c).1, ∀ c' ∈ cl, q.1 ≠ c'.1 := by
      intro q hq c' hc'
      rw [hins] at hq
      rcases List.mem_append.1 hq with h | h
      · exact hdisj q h c' (List.mem_cons_of_mem c hc')
      · have : q = (c.1, analyzeClient pdfS docxS c.2) := List.mem_singleton.1 h
        rw [this]
        intro hcontra
        exact hhead (hcontra ▸ List.mem_map_of_mem Prod.fst hc')
    rw [ih (analyzeStep pdfS docxS acc c) hd' hdisj', hins]
    simp

/-- The names of the extracted client folders are the root's subdirectory
names. -/
theorem clientFoldersOf_names (es : List Entry) :
    (clientFoldersOf es).map Prod.fst = dirNames es := by
  induction es with
  | nil => rfl
  | cons e es ih =>
    cases e <;> simp [clientFoldersOf, dirNames, List.filterMap_cons] at ih ⊢ <;>
      simpa [clientFoldersOf, dirNames] using ih

/-- Sorting the client folders permutes them. -/
theorem sortClientFolders_perm (l : List (String × List Entry)) :
    List.Perm (sortClientFolders l) l :=
  List.perm_insertionSort _ l

/-- Unfolding of `analyze_folder` on a directory root. -/
theorem analyze_folder_dir (pdfS docxS : Bool) (es : List Entry) (p : String) :
    analyze_folder pdfS docxS (RootFS.dir es) p =
      Except.ok
        { clients := ((sortClientFolders (clientFoldersOf es)).foldl (analyzeStep pdfS docxS)
            ([], zeroSummary)).1,
          summary := ((sortClientFolders (clientFoldersOf es)).foldl (analyzeStep pdfS docxS)
            ([], zeroSummary)).2,
          analyzed_path := p } := rfl

/-- The derived `total_documents` of an analyzed client. -/
theorem analyzeClient_total_documents (pdfS docxS : Bool) (es : List Entry) :
    (analyzeClient pdfS docxS es).total_documents =
      (analyzeClient pdfS docxS es).pdf_count + (analyzeClient pdfS docxS es).docx_count := rfl

/-- The derived `total_pages` of an analyzed client. -/
theorem analyzeClient_total_pages (pdfS docxS : Bool) (es : List Entry) :
    (analyzeClient pdfS docxS es).total_pages =
      (analyzeClient pdfS docxS es).pdf_pages + (analyzeClient pdfS docxS es).docx_pages := rfl

/-- Sums of pointwise sums split. -/
theorem sum_map_add_nat {α : Type} (l : List α) (f g : α → Nat) :
    (l.map (fun a => f a + g a)).sum = (l.map f).sum + (l.map g).sum := by
  induction l with
  | nil => rfl
  | cons a l ih => simp [ih] ; omega

/-- C1: in every completed report, each client's `total_documents` is
`pdf_count + docx_count` and `total_pages` is `pdf_pages + docx_pages`, and
the summary's `total_documents` is `total_pdf_files + total_docx_files` and
`total_pages` is `total_pdf_pages + total_docx_pages`. -/
theorem claim_C1_totals_invariant (pdfS docxS : Bool) (root : RootFS) (p : String) (r : Report)
    (h : analyze_folder pdfS docxS root p = Except.ok r) :
    (∀ name cs, (name, cs) ∈ r.clients →
       cs.total_documents = cs.pdf_count + cs.docx_count ∧
       cs.total_pages = cs.pdf_pages + cs.docx_pages) ∧
    r.summary.total_documents = r.summary.total_pdf_files + r.summary.total_docx_files ∧
    r.summary.total_pages = r.summary.total_pdf_pages + r.summary.total_docx_pages := by
  cases root with
  | missing => simp [analyze_folder] at h
  | nonDir => simp [analyze_folder] at h
  | dir es =>
    rw [analyze_folder_dir] at h
    injection h with h
    subst h
    refine ⟨?_, ?_, ?_⟩
    · intro name cs hmem
      rcases foldClients_mem pdfS docxS _ ([], zeroSummary) (name, cs) hmem with h0 | ⟨c, _, he⟩
      · simp at h0
      · rw [show cs = analyzeClient pdfS docxS c.2 from he]
        exact ⟨analyzeClient_total_documents pdfS docxS c.2, analyzeClient_total_pages pdfS docxS c.2⟩
    · obtain ⟨s1, s2, _, _, s5, _⟩ :=
        foldClients_summary pdfS docxS (sortClientFolders (clientFoldersOf es)) ([], zeroSummary)
      rw [s1, s2, s5]
      simp only [analyzeClient_total_documents, zeroSummary]
      rw [sum_map_add_nat]
      omega
    · obtain ⟨_, _, s3, s4, _, s6⟩ :=
        foldClients_summary pdfS docxS (sortClientFolders (clientFoldersOf es)) ([], zeroSummary)
      rw [s3, s4, s6]
      simp only [analyzeClient_total_pages, zeroSummary]
      rw [sum_map_add_nat]
      omega

/-- Witness for C1 on the sample scenario. -/
theorem claim_C1_witness :
    sampleReport.summary.total_documents
      = sampleReport.summary.total_pdf_files + sampleReport.summary.total_docx_files :=
  (claim_C1_totals_invariant true true sampleRoot ("clients") sampleReport (by rfl)).2.1

/-- C2: in every completed report with pairwise-distinct client-folder names
(as on any real filesystem), the summary's `total_documents` and `total_pages`
are the sums of the clients' respective totals. -/
theorem claim_C2_summary_is_sum (pdfS docxS : Bool) (root : RootFS) (p : String) (r : Report)
    (hnd : (rootDirNames root).Nodup)
    (h : analyze_folder pdfS docxS root p = Except.ok r) :
    r.summary.total_documents = (r.clients.map (fun c => c.2.total_documents)).sum ∧
    r.summary.total_pages = (r.clients.map (fun c => c.2.total_pages)).sum := by
  cases root with
  | missing => simp [analyze_folder] at h
  | nonDir => simp [analyze_folder] at h
  | dir es =>
    rw [analyze_folder_dir] at h
    injection h with h
    subst h
    have hperm : List.Perm ((sortClientFolders (clientFoldersOf es)).map Prod.fst)
        ((clientFoldersOf es).map Prod.fst) :=
      (sortClientFolders_perm (clientFoldersOf es)).map Prod.fst
    have hnd' : ((sortClientFolders (clientFoldersOf es)).map Prod.fst).Nodup := by
      rw [hperm.nodup_iff, clientFoldersOf_names]
      exact hnd
    have hcl := foldClients_clients pdfS docxS (sortClientFolders (clientFoldersOf es))
      ([], zeroSummary) hnd' (by intro q hq; simp at hq)
    obtain ⟨_, _, _, _, s5, s6⟩ :=
      foldClients_summary pdfS docxS (sortClientFolders (clientFoldersOf es)) ([], zeroSummary)
    constructor
    · rw [s5, hcl]
      simp [List.map_map, Function.comp_def, zeroSummary]
    · rw [s6, hcl]
      simp [List.map_map, Function.comp_def, zeroSummary]

/-- Witness for C2 on the sample scenario. -/
theorem claim_C2_witness :
    sampleReport.summary.total_documents
      = (sampleReport.clients.map (fun c => c.2.total_documents)).sum :=
  (claim_C2_summary_is_sum true true sampleRoot ("clients") sampleReport (by decide) (by rfl)).1

/-- C3: for a `.docx` whose backend is available and whose parse succeeds with
`total_chars` characters, the estimate is `max(1, total_chars // 3000)` when
`total_chars > 0` and `1` when it is `0`; in particular 0 chars estimate to 1
page, 3000 to 1, each of 3001..5999 to 1, and 6000 to 2. -/
theorem claim_C3_docx_estimate (nm : String) (pp : Option Nat) :
    (∀ chars : Nat, count_docx_pages true ⟨nm, pp, some chars⟩ =
        if chars > 0 then max 1 (chars / 3000) else 1) ∧
    count_docx_pages true ⟨nm, pp, some 0⟩ = 1 ∧
    count_docx_pages true ⟨nm, pp, some 3000⟩ = 1 ∧
    (∀ chars : Nat, 3001 ≤ chars → chars ≤ 5999 →
        count_docx_pages true ⟨nm, pp, some chars⟩ = 1) ∧
    count_docx_pages true ⟨nm, pp, some 6000⟩ = 2 := by
  refine ⟨fun chars => rfl, rfl, by norm_num [count_docx_pages, count_docx_pagesE], ?_,
    by norm_num [count_docx_pages, count_docx_pagesE]⟩
  intro chars h1 h2
  have hpos : 0 < chars := by omega
  have hdiv : chars / 3000 = 1 := by omega
  simp [count_docx_pages, count_docx_pagesE, hpos, hdiv]

/-- Witness for C3 in the middle of the 3001..5999 band. -/
theorem claim_C3_witness :
    count_docx_pages true ⟨("w.docx"), none, some 4500⟩ = 1 :=
  (claim_C3_docx_estimate ("w.docx") none).2.2.2.1 4500 (by norm_num) (by norm_num)

/-- C4 (amended): a missing root fails with the spec's `RootNotFound`
(`FileNotFoundError`); a root that exists but is not a directory also aborts
the run with no report, but through `NotADirectoryError` from
`root_path.iterdir()`, not `RootNotFound`; a directory root always yields a
report, so these are the only aborting conditions. -/
theorem claim_C4_root_errors (pdfS docxS : Bool) (p : String) :
    analyze_folder pdfS docxS RootFS.missing p = Except.error AnalyzeError.rootNotFound ∧
    analyze_folder pdfS docxS RootFS.nonDir p = Except.error AnalyzeError.notADirectory ∧
    (∀ es : List Entry, ∃ r : Report, analyze_folder pdfS docxS (RootFS.dir es) p = Except.ok r) :=
  ⟨rfl, rfl, fun es => ⟨_, analyze_folder_dir pdfS docxS es p⟩⟩

/-- C4 counterexample: on a root that exists but is a regular file, the run
does not fail with `RootNotFound` — it fails with `NotADirectoryError`. -/
theorem claim_C4_counterexample :
    analyze_folder true true RootFS.nonDir ("clients") ≠
      Except.error AnalyzeError.rootNotFound ∧
    analyze_folder true true RootFS.nonDir ("clients") =
      Except.error AnalyzeError.notADirectory := by
  constructor
  · intro h
    simp [analyze_folder] at h
  · rfl

/-- C5: a `.pdf` with no backend, or whose parse raises, yields page count 0
from a total (never-throwing) routine; the file is still recorded under
`pdf_files` with `pages = 0` and contributes nothing to `pdf_pages`; and a
scan over any directory root always completes with a report. -/
theorem claim_C5_pdf_error_isolated :
    (∀ f : File, count_pdf_pages false f = 0) ∧
    (∀ f : File, f.pdfParse = none → count_pdf_pages true f = 0) ∧
    (∀ (pdfS docxS : Bool) (cs : ClientStats) (rp : String) (f : File),
        pyEndsWith (pyLower f.name) (".pdf") = true → count_pdf_pages pdfS f = 0 →
        processFile pdfS docxS cs rp f =
          { cs with pdf_files := cs.pdf_files ++ [⟨rp, 0⟩],
                    pdf_count := cs.pdf_count + 1 }) ∧
    (∀ (pdfS docxS : Bool) (es : List Entry) (p : String),
        ∃ r, analyze_folder pdfS docxS (RootFS.dir es) p = Except.ok r) := by
  refine ⟨fun f => rfl, ?_, ?_, fun pdfS docxS es p => ⟨_, analyze_folder_dir pdfS docxS es p⟩⟩
  · intro f h
    simp [count_pdf_pages, count_pdf_pagesE, h]
  · intro pdfS docxS cs rp f h hz
    rw [processFile_pdf pdfS docxS cs rp f h, hz]
    simp

/-- Witness for C5: an unreadable PDF evaluates to 0 pages. -/
theorem claim_C5_witness :
    count_pdf_pages true ⟨("c.pdf"), none, none⟩ = 0 :=
  claim_C5_pdf_error_isolated.2.1 ⟨("c.pdf"), none, none⟩ rfl

/-- C6: with a format's backend flag off (the module-level booleans probed
once at import), the estimator returns 0 without invoking the backend at all,
and in a whole run every record of that format carries 0 pages and the
format's page sum is 0. -/
theorem claim_C6_backend_short_circuit :
    (∀ f : File, count_pdf_pagesE false f = (0, false)) ∧
    (∀ f : File, count_docx_pagesE false f = (0, false)) ∧
    (∀ (docxS : Bool) (es : List Entry),
        (∀ rec ∈ (analyzeClient false docxS es).pdf_files, rec.pages = 0) ∧
        (analyzeClient false docxS es).pdf_pages = 0) ∧
    (∀ (pdfS : Bool) (es : List Entry),
        (∀ rec ∈ (analyzeClient pdfS false es).docx_files, rec.pages = 0) ∧
        (analyzeClient pdfS false es).docx_pages = 0) := by
  have hpdf0 : ∀ f : File, count_pdf_pages false f = 0 := fun f => rfl
  have hword0 : ∀ f : File, wordPages false f = 0 := by
    intro f
    simp [wordPages, count_docx_pages, count_docx_pagesE]
  refine ⟨fun f => rfl, fun f => rfl, ?_, ?_⟩
  · intro docxS es
    obtain ⟨_, _, c3, _, c5, _⟩ := analyzeClient_spec false docxS es
    constructor
    · intro rec hrec
      rw [c5] at hrec
      obtain ⟨pf, _, he⟩ := List.mem_map.1 hrec
      rw [← he]
      exact hpdf0 pf.2
    · rw [c3]
      apply List.sum_eq_zero
      intro x hx
      obtain ⟨pf, _, he⟩ := List.mem_map.1 hx
      rw [← he]
      exact hpdf0 pf.2
  · intro pdfS es
    obtain ⟨_, _, _, c4, _, c6⟩ := analyzeClient_spec pdfS false es
    constructor
    · intro rec hrec
      rw [c6] at hrec
      obtain ⟨pf, _, he⟩ := List.mem_map.1 hrec
      rw [← he]
      exact hword0 pf.2
    · rw [c4]
      apply List.sum_eq_zero
      intro x hx
      obtain ⟨pf, _, he⟩ := List.mem_map.1 hx
      rw [← he]
      exact hword0 pf.2

/-- Witness for C6: in the sample client scanned without a PDF backend, the
readable 3-page PDF is recorded with 0 pages. -/
theorem claim_C6_witness :
    (FileRec.mk ("a.pdf") 0).pages = 0 :=
  (claim_C6_backend_short_circuit.2.2.1 true acmeEntries).1 ⟨("a.pdf"), 0⟩ (by decide)

/-- C7: a file whose lower-cased name ends in `.doc` but not `.docx` is
recorded with page count 0 (the dispatch takes its Word branch and never
raises), leaving the page sums unchanged. -/
theorem claim_C7_doc_zero_pages (pdfS docxS : Bool) (cs : ClientStats) (rp : String) (f : File)
    (hdoc : pyEndsWith (pyLower f.name) (".doc") = true)
    (hndocx : pyEndsWith (pyLower f.name) (".docx") = false) :
    processFile pdfS docxS cs rp f =
      { cs with docx_files := cs.docx_files ++ [⟨rp, 0⟩],
                docx_count := cs.docx_count + 1 } := by
  have hpdf := not_pdf_of_doc (pyLower f.name) hdoc
  rw [processFile_word pdfS docxS cs rp f hpdf (by simp [hdoc])]
  simp [wordPages, hndocx]

/-- Witness for C7 on a concrete legacy `.doc` file. -/
theorem claim_C7_witness :
    processFile true true emptyClientStats ("legacy.doc") ⟨("legacy.doc"), none, none⟩ =
      { emptyClientStats with docx_files := [⟨("legacy.doc"), 0⟩], docx_count := 1 } :=
  claim_C7_doc_zero_pages true true emptyClientStats ("legacy.doc")
    ⟨("legacy.doc"), none, none⟩ (by decide) (by decide)

/-- C9: a `.doc` file is appended to `docx_files` (with 0 pages) and counted
in `docx_count`; the per-client `docx_count` counts `.docx` and `.doc` files
together (there is no separate field for the legacy kind), and the summary's
`total_docx_files` accumulates exactly that combined count. -/
theorem claim_C9_doc_counted_with_docx :
    (∀ (pdfS docxS : Bool) (cs : ClientStats) (rp : String) (f : File),
        pyEndsWith (pyLower f.name) (".doc") = true →
        pyEndsWith (pyLower f.name) (".docx") = false →
        (processFile pdfS docxS cs rp f).docx_files = cs.docx_files ++ [⟨rp, 0⟩] ∧
        (processFile pdfS docxS cs rp f).docx_count = cs.docx_count + 1) ∧
    (∀ (pdfS docxS : Bool) (es : List Entry),
        (analyzeClient pdfS docxS es).docx_count =
          (walkClient es).countP (fun pf =>
            pyEndsWith (pyLower pf.2.name) (".docx")
              || pyEndsWith (pyLower pf.2.name) (".doc"))) ∧
    (∀ (t : Summary) (cs : ClientStats),
        (addSummary t cs).total_docx_files = t.total_docx_files + cs.docx_count) := by
  have hpt : ∀ pf : String × File, isWordFile pf =
      (pyEndsWith (pyLower pf.2.name) (".docx") || pyEndsWith (pyLower pf.2.name) (".doc")) := by
    intro pf
    cases hdx : pyEndsWith (pyLower pf.2.name) (".docx") with
    | true => simp [isWordFile, isPdfFile, not_pdf_of_docx (pyLower pf.2.name) hdx, hdx]
    | false =>
      cases hdc : pyEndsWith (pyLower pf.2.name) (".doc") with
      | true => simp [isWordFile, isPdfFile, not_pdf_of_doc (pyLower pf.2.name) hdc, hdx, hdc]
      | false => simp [isWordFile, hdx, hdc]
  refine ⟨?_, ?_, fun t cs => rfl⟩
  · intro pdfS docxS cs rp f hdoc hndocx
    have hpdf := not_pdf_of_doc (pyLower f.name) hdoc
    rw [processFile_word pdfS docxS cs rp f hpdf (by simp [hdoc])]
    constructor <;> simp [wordPages, hndocx]
  · intro pdfS docxS es
    obtain ⟨_, c2, _, _, _, _⟩ := analyzeClient_spec pdfS docxS es
    rw [c2]
    congr 1
    exact funext hpt

/-- Witness for C9 on a concrete legacy `.doc` file. -/
theorem claim_C9_witness :
    (processFile true true emptyClientStats ("old.doc") ⟨("old.doc"), none, none⟩).docx_count
      = emptyClientStats.docx_count + 1 :=
  (claim_C9_doc_counted_with_docx.1 true true emptyClientStats ("old.doc")
    ⟨("old.doc"), none, none⟩ (by decide) (by decide)).2

/-- C10: only immediate subdirectories of the root become clients — a regular
file anywhere in the root's listing changes nothing about the produced report,
and a root with no subdirectories yields an empty clients map and an all-zero
summary. -/
theorem claim_C10_only_subdirs :
    (∀ (pdfS docxS : Bool) (es₁ es₂ : List Entry) (f : File) (p : String),
        analyze_folder pdfS docxS (RootFS.dir (es₁ ++ Entry.file f :: es₂)) p =
          analyze_folder pdfS docxS (RootFS.dir (es₁ ++ es₂)) p) ∧
    (∀ (pdfS docxS : Bool) (es : List Entry) (p : String),
        clientFoldersOf es = [] →
        analyze_folder pdfS docxS (RootFS.dir es) p =
          Except.ok { clients := [], summary := zeroSummary, analyzed_path := p }) := by
  constructor
  · intro pdfS docxS es₁ es₂ f p
    have hcf : clientFoldersOf (es₁ ++ Entry.file f :: es₂) = clientFoldersOf (es₁ ++ es₂) := by
      simp [clientFoldersOf, List.filterMap_append, List.filterMap_cons]
    rw [analyze_folder_dir, analyze_folder_dir, hcf]
  · intro pdfS docxS es p h
    rw [analyze_folder_dir, h]
    rfl

/-- Witness for C10: a root holding only a stray file yields the empty
report. -/
theorem claim_C10_witness :
    analyze_folder true true (RootFS.dir [Entry.file ⟨("stray.pdf"), some 9, none⟩]) ("r") =
      Except.ok { clients := [], summary := zeroSummary, analyzed_path := ("r") } :=
  claim_C10_only_subdirs.2 true true [Entry.file ⟨("stray.pdf"), some 9, none⟩] ("r") rfl

/-- Python's string comparison is total. -/
theorem charsLe_total (l₁ l₂ : List Char) : charsLe l₁ l₂ = true ∨ charsLe l₂ l₁ = true := by
  induction l₁ generalizing l₂ with
  | nil => exact Or.inl rfl
  | cons a as ih =>
    cases l₂ with
    | nil => exact Or.inr rfl
    | cons b bs =>
      by_cases hab : a = b
      · subst hab
        rcases ih bs with h | h
        · left; simpa [charsLe] using h
        · right; simpa [charsLe] using h
      · rcases lt_or_gt_of_ne hab with h | h
        · left; simp [charsLe, hab, h]
        · right
          have hba : b ≠ a := fun he => hab he.symm
          simp [charsLe, hba, h]

/-- Python's string comparison is transitive. -/
theorem charsLe_trans (l₁ l₂ l₃ : List Char) (h₁ : charsLe l₁ l₂ = true)
    (h₂ : charsLe l₂ l₃ = true) : charsLe l₁ l₃ = true := by
  induction l₁ generalizing l₂ l₃ with
  | nil => rfl
  | cons a as ih =>
    cases l₂ with
    | nil => simp [charsLe] at h₁
    | cons b bs =>
      cases l₃ with
      | nil => simp [charsLe] at h₂
      | cons c cs =>
        by_cases hab : a = b <;> by_cases hbc : b = c
        · subst hab; subst hbc
          simp only [charsLe, if_pos rfl] at h₁ h₂ ⊢
          exact ih bs cs h₁ h₂
        · subst hab
          simp only [charsLe, if_neg hbc, decide_eq_true_eq] at h₂
          have hac : a < c := h₂
          simp [charsLe, ne_of_lt hac, hac]
        · subst hbc
          simp only [charsLe, if_neg hab, decide_eq_true_eq] at h₁
          simp [charsLe, hab, h₁]
        · simp only [charsLe, if_neg hab, decide_eq_true_eq] at h₁
          simp only [charsLe, if_neg hbc, decide_eq_true_eq] at h₂
          have hac : a < c := lt_trans h₁ h₂
          simp [charsLe, ne_of_lt hac, hac]

instance : IsTotal (String × ClientStats) (fun a b => pyStrLe a.1 b.1 = true) :=
  ⟨fun a b => charsLe_total a.1.data b.1.data⟩

instance : IsTrans (String × ClientStats) (fun a b => pyStrLe a.1 b.1 = true) :=
  ⟨fun a b c h₁ h₂ => charsLe_trans a.1.data b.1.data c.1.data h₁ h₂⟩

/-- A decimal digit character is never a comma or a double quote. -/
theorem digitChar_clean (m : Nat) : Nat.digitChar m ≠ ',' ∧ Nat.digitChar m ≠ '"' := by
  by_cases h : m < 16
  · interval_cases m <;> exact ⟨by decide, by decide⟩
  · have h0 : Nat.digitChar m = ('*') := by
      simp [Nat.digitChar, show m ≠ 0 by omega, show m ≠ 1 by omega, show m ≠ 2 by omega,
        show m ≠ 3 by omega, show m ≠ 4 by omega, show m ≠ 5 by omega, show m ≠ 6 by omega,
        show m ≠ 7 by omega, show m ≠ 8 by omega, show m ≠ 9 by omega, show m ≠ 10 by omega,
        show m ≠ 11 by omega, show m ≠ 12 by omega, show m ≠ 13 by omega, show m ≠ 14 by omega,
        show m ≠ 15 by omega]
    rw [h0]
    exact ⟨by decide, by decide⟩

/-- `Nat.toDigitsCore` emits only digit characters on top of its
accumulator. -/
theorem toDigitsCore_clean (fuel : Nat) : ∀ (n : Nat) (ds : List Char),
    (∀ c ∈ ds, c ≠ ',' ∧ c ≠ '"') →
    ∀ c ∈ Nat.toDigitsCore 10 fuel n ds, c ≠ ',' ∧ c ≠ '"' := by
  induction fuel with
  | zero => intro n ds h c hc; exact h c hc
  | succ fuel ih =>
    intro n ds h c hc
    rw [show Nat.toDigitsCore 10 (fuel + 1) n ds
        = if n / 10 = 0 then Nat.digitChar (n % 10) :: ds
          else Nat.toDigitsCore 10 fuel (n / 10) (Nat.digitChar (n % 10) :: ds) from rfl] at hc
    have hds : ∀ x ∈ Nat.digitChar (n % 10) :: ds, x ≠ ',' ∧ x ≠ '"' := by
      intro x hx
      rcases List.mem_cons.1 hx with he | hm
      · exact he ▸ digitChar_clean (n % 10)
      · exact h x hm
    split at hc
    · exact hds c hc
    · exact ih (n / 10) (Nat.digitChar (n % 10) :: ds) hds c hc

/-- The decimal representation of a natural number holds no comma and no
double quote. -/
theorem repr_clean (n : Nat) : ∀ c ∈ (Nat.repr n).data, c ≠ ',' ∧ c ≠ '"' := by
  intro c hc
  exact toDigitsCore_clean (n + 1) n [] (by intro x hx; cases hx) c hc

/-- Inside quotes, quote-free text is absorbed into the current field. -/
theorem csvSplitCore_append_inq (l : List Char) (r cur : List Char)
    (h : ∀ c ∈ l, c ≠ '"') :
    csvSplitCore (l ++ r) true cur = csvSplitCore r true (l.reverse ++ cur) := by
  induction l generalizing cur with
  | nil => simp
  | cons c cs ih =>
    have hc : c ≠ '"' := h c (List.mem_cons_self c cs)
    rw [List.cons_append,
      show csvSplitCore (c :: (cs ++ r)) true cur = csvSplitCore (cs ++ r) true (c :: cur) from by
        simp [csvSplitCore, hc]]
    rw [ih (c :: cur) (fun x hx => h x (List.mem_cons_of_mem c hx))]
    simp

/-- Outside quotes, comma-free quote-free text is absorbed into the current
field. -/
theorem csvSplitCore_append_clean (l : List Char) (r cur : List Char) (inQ : Bool)
    (h : ∀ c ∈ l, c ≠ ',' ∧ c ≠ '"') :
    csvSplitCore (l ++ r) inQ cur = csvSplitCore r inQ (l.reverse ++ cur) := by
  induction l generalizing cur with
  | nil => simp
  | cons c cs ih =>
    have hc := h c (List.mem_cons_self c cs)
    rw [List.cons_append,
      show csvSplitCore (c :: (cs ++ r)) inQ cur = csvSplitCore (cs ++ r) inQ (c :: cur) from by
        simp [csvSplitCore, hc.1, hc.2]]
    rw [ih (c :: cur) (fun x hx => h x (List.mem_cons_of_mem c hx))]
    simp

/-- Splitting a comma-join of clean fields recovers the fields (with the
accumulated prefix landing in the first field). -/
theorem csvSplitCore_joinComma (f : List Char) (fs : List (List Char)) (cur : List Char)
    (h : ∀ g ∈ f :: fs, ∀ c ∈ g, c ≠ ',' ∧ c ≠ '"') :
    csvSplitCore (joinComma (f :: fs)) false cur = (cur.reverse ++ f) :: fs := by
  induction fs generalizing f cur with
  | nil =>
    rw [show joinComma [f] = f from rfl, show f = f ++ [] from by simp,
      csvSplitCore_append_clean f [] cur false (fun c hc => h f (List.mem_cons_self f []) c hc)]
    simp [csvSplitCore]
  | cons g gs ih =>
    rw [show joinComma (f :: g :: gs) = f ++ ',' :: joinComma (g :: gs) from rfl,
      csvSplitCore_append_clean f _ cur false (fun c hc => h f (List.mem_cons_self f _) c hc),
      show csvSplitCore (',' :: joinComma (g :: gs)) false (f.reverse ++ cur)
          = (f.reverse ++ cur).reverse :: csvSplitCore (joinComma (g :: gs)) false [] from by
        simp [csvSplitCore]]
    rw [ih g [] (fun x hx => h x (List.mem_cons_of_mem f hx))]
    simp

/-- Splitting a quoted quote-free field followed by a comma recovers the field
text and continues with the rest. -/
theorem csvSplitCore_quoted (name : List Char) (rest : List Char)
    (hq : ∀ c ∈ name, c ≠ '"') :
    csvSplitCore ('"' :: (name ++ '"' :: ',' :: rest)) false [] =
      name :: csvSplitCore rest false [] := by
  rw [show csvSplitCore ('"' :: (name ++ '"' :: ',' :: rest)) false []
      = csvSplitCore (name ++ '"' :: ',' :: rest) true [] from by simp [csvSplitCore]]
  rw [csvSplitCore_append_inq name _ [] hq]
  rw [show csvSplitCore ('"' :: ',' :: rest) true (name.reverse ++ [])
      = csvSplitCore (',' :: rest) false (name.reverse ++ []) from by simp [csvSplitCore]]
  rw [show csvSplitCore (',' :: rest) false (name.reverse ++ [])
      = (name.reverse ++ []).reverse :: csvSplitCore rest false [] from by simp [csvSplitCore]]
  simp

/-- C8 (amended): the CSV report is the header line, one data row per client
sorted by name, then a `TOTAL` row built from the summary; a client name
containing a comma is emitted wrapped in double quotes; and for any client
name free of double-quote characters (quotes are not escaped, see the
counterexample) the data row parses back into exactly the 7 header columns,
the first being the client name. -/
theorem claim_C8_csv_report (r : Report) :
    save_csv_report r =
      csvHeaderLine :: ((sortClientStats r.clients).map (fun p => clientCsvRow p.1 p.2)
        ++ [totalCsvRow r.summary]) ∧
    List.Perm (sortClientStats r.clients) r.clients ∧
    List.Pairwise (fun a b => pyStrLe a.1 b.1 = true) (sortClientStats r.clients) ∧
    (∀ name : String, name.data.contains ',' = true →
        safeCsvName name = ("\"") ++ name ++ ("\"")) ∧
    (∀ (name : String) (s : ClientStats), (∀ c ∈ name.data, c ≠ '"') →
        csvSplit (clientCsvRow name s) =
          [name, Nat.repr s.pdf_count, Nat.repr s.docx_count, Nat.repr s.total_documents,
           Nat.repr s.pdf_pages, Nat.repr s.docx_pages, Nat.repr s.total_pages]) ∧
    csvSplit (totalCsvRow r.summary) =
      [("TOTAL"), Nat.repr r.summary.total_pdf_files, Nat.repr r.summary.total_docx_files,
       Nat.repr r.summary.total_documents, Nat.repr r.summary.total_pdf_pages,
       Nat.repr r.summary.total_docx_pages, Nat.repr r.summary.total_pages] := by
  refine ⟨rfl, List.perm_insertionSort _ r.clients, List.sorted_insertionSort _ r.clients,
    ?_, ?_, ?_⟩
  · intro name h
    have hmem : ',' ∈ name.data := by simpa using h
    simp [safeCsvName, hmem]
  · intro name s hq
    have hclean : ∀ g ∈ [(Nat.repr s.pdf_count).data, (Nat.repr s.docx_count).data,
        (Nat.repr s.total_documents).data, (Nat.repr s.pdf_pages).data,
        (Nat.repr s.docx_pages).data, (Nat.repr s.total_pages).data],
        ∀ c ∈ g, c ≠ ',' ∧ c ≠ '"' := by
      intro g hg c hc
      simp only [List.mem_cons, List.not_mem_nil, or_false] at hg
      rcases hg with h|h|h|h|h|h <;> exact repr_clean _ c (h ▸ hc)
    cases hcomma : name.data.contains ',' with
    | true =>
      have hmem : ',' ∈ name.data := by simpa using hcomma
      have hd : (clientCsvRow name s).data
          = '"' :: (name.data ++ '"' :: ',' :: joinComma
              [(Nat.repr s.pdf_count).data, (Nat.repr s.docx_count).data,
               (Nat.repr s.total_documents).data, (Nat.repr s.pdf_pages).data,
               (Nat.repr s.docx_pages).data, (Nat.repr s.total_pages).data]) := by
        simp [clientCsvRow, safeCsvName, hmem, joinComma, String.data_append,
          List.append_assoc, show (",").data = [','] from rfl,
          show ("\"").data = ['"'] from rfl]
      unfold csvSplit
      rw [hd, csvSplitCore_quoted name.data _ hq,
        csvSplitCore_joinComma (Nat.repr s.pdf_count).data _ [] hclean]
      simp
    | false =>
      have hnmem : ',' ∉ name.data := by
        intro hmem
        rw [show name.data.contains ',' = true by simpa using hmem] at hcomma
        cases hcomma
      have hnc : ∀ c ∈ name.data, c ≠ ',' := fun c hc he => hnmem (he ▸ hc)
      have hd : (clientCsvRow name s).data
          = joinComma [name.data, (Nat.repr s.pdf_count).data, (Nat.repr s.docx_count).data,
              (Nat.repr s.total_documents).data, (Nat.repr s.pdf_pages).data,
              (Nat.repr s.docx_pages).data, (Nat.repr s.total_pages).data] := by
        simp [clientCsvRow, safeCsvName, hnmem, joinComma, String.data_append,
          List.append_assoc, show (",").data = [','] from rfl]
      have hclean2 : ∀ g ∈ name.data :: [(Nat.repr s.pdf_count).data, (Nat.repr s.docx_count).data,
          (Nat.repr s.total_documents).data, (Nat.repr s.pdf_pages).data,
          (Nat.repr s.docx_pages).data, (Nat.repr s.total_pages).data],
          ∀ c ∈ g, c ≠ ',' ∧ c ≠ '"' := by
        intro g hg
        rcases List.mem_cons.1 hg with h | h
        · exact fun c hc => ⟨hnc c (h ▸ hc), hq c (h ▸ hc)⟩
        · exact hclean g h
      unfold csvSplit
      rw [hd, csvSplitCore_joinComma name.data _ [] hclean2]
      simp
  · have hclean : ∀ g ∈ [("TOTAL").data, (Nat.repr r.summary.total_pdf_files).data,
        (Nat.repr r.summary.total_docx_files).data, (Nat.repr r.summary.total_documents).data,
        (Nat.repr r.summary.total_pdf_pages).data, (Nat.repr r.summary.total_docx_pages).data,
        (Nat.repr r.summary.total_pages).data], ∀ c ∈ g, c ≠ ',' ∧ c ≠ '"' := by
      intro g hg c hc
      simp only [List.mem_cons, List.not_mem_nil, or_false] at hg
      rcases hg with h|h|h|h|h|h|h
      · subst h
        have hc2 := hc
        simp only [show ("TOTAL").data = ['T', 'O', 'T', 'A', 'L'] from rfl, List.mem_cons,
          List.not_mem_nil, or_false] at hc2
        rcases hc2 with h|h|h|h|h <;> subst h <;> exact ⟨by decide, by decide⟩
      all_goals exact repr_clean _ c (h ▸ hc)
    have hd : (totalCsvRow r.summary).data
        = joinComma [("TOTAL").data, (Nat.repr r.summary.total_pdf_files).data,
            (Nat.repr r.summary.total_docx_files).data, (Nat.repr r.summary.total_documents).data,
            (Nat.repr r.summary.total_pdf_pages).data, (Nat.repr r.summary.total_docx_pages).data,
            (Nat.repr r.summary.total_pages).data] := by
      simp [totalCsvRow, joinComma, String.data_append, List.append_assoc,
        show (",").data = [','] from rfl, show ("TOTAL,").data = ('T' :: "OTAL,".data) from rfl,
        show ("TOTAL").data = ('T' :: "OTAL".data) from rfl]
    unfold csvSplit
    rw [hd, csvSplitCore_joinComma ("TOTAL").data _ [] hclean]
    simp

/-- C8 counterexample: the client name `a","b` contains a comma and is duly
emitted wrapped in double quotes, yet because embedded quotes are not
escaped its CSV row parses into 8 fields — not the 7 columns of the header —
so quoting alone does not keep every comma-carrying row well-formed. -/
theorem claim_C8_counterexample :
    ("a\",\"b").data.contains ',' = true ∧
    safeCsvName ("a\",\"b") = ("\"") ++ ("a\",\"b") ++ ("\"") ∧
    (csvSplit (clientCsvRow ("a\",\"b") emptyClientStats)).length = 8 ∧
    (csvSplit csvHeaderLine).length = 7 := by
  refine ⟨rfl, rfl, rfl, rfl⟩

/-- Witness for C8: the spec's `Smith, John` scenario row parses back into
its 7 columns with the name intact. -/
theorem claim_C8_witness :
    csvSplit (clientCsvRow ("Smith, John") ⟨[], [], 2, 1, 5, 1, 3, 6⟩) =
      [("Smith, John"), ("2"), ("1"), ("3"), ("5"), ("1"), ("6")] := by
  have h := (claim_C8_csv_report
    { clients := [], summary := ⟨0, 0, 0, 0, 0, 0⟩, analyzed_path := ("x") }).2.2.2.2.1
  exact h ("Smith, John") ⟨[], [], 2, 1, 5, 1, 3, 6⟩ (by decide)
